import Mathlib

/-!
Verification development for the mindNotes AI-analysis and search pipeline.

The definitions below are a shallow embedding of the TypeScript route
handlers in `src/app/api/analyze/route.ts` and the search / embedding
routes. Randomness (`Math.random()` picks) is made explicit as injected
choice functions, per the design note that the fallback generators must be
seedable. Timestamps are seconds as natural numbers; the Redis store is
modelled as explicit state threaded through the handler.
-/

namespace MindNotes

/-! ## Shared string utilities -/

/-- Whitespace splitter modelling `content.split(/\s+/)` composed with the
filters the code always applies afterwards (empty tokens are dropped by
`word.length > 4` or `filter(Boolean)`, so runs of whitespace collapse). -/
def splitWsAux : List Char → List Char → List String
  | [], acc => if acc.isEmpty then [] else [String.mk acc.reverse]
  | c :: cs, acc =>
    if c.isWhitespace then
      if acc.isEmpty then splitWsAux cs []
      else String.mk acc.reverse :: splitWsAux cs []
    else splitWsAux cs (c :: acc)

def splitWs (s : String) : List String := splitWsAux s.data []

/-- First-occurrence deduplication, modelling `[...new Set(words)]`. -/
def dedupFirstAux : List String → List String → List String
  | [], _ => []
  | x :: xs, seen =>
    if x ∈ seen then dedupFirstAux xs seen
    else x :: dedupFirstAux xs (x :: seen)

def dedupFirst (l : List String) : List String := dedupFirstAux l []

/-- `word.replace(/[^\w\s]/gi, '')`: keep word chars and whitespace. -/
def stripNonWord (s : String) : String :=
  String.mk (s.data.filter (fun c => c.isAlphanum || c = '_' || c.isWhitespace))

/-- Lower-casing of a string, modelling `.toLowerCase()`. -/
def lowerStr (s : String) : String := String.mk (s.data.map Char.toLower)

/-- `query.trim()` over the character list. -/
def trimChars (l : List Char) : List Char :=
  ((l.dropWhile Char.isWhitespace).reverse.dropWhile Char.isWhitespace).reverse

/-- `query.trim().toLowerCase()`. -/
def normalizeQuery (q : String) : String :=
  String.mk ((trimChars q.data).map Char.toLower)

/-- Is `pat` a leading segment of `s`? -/
def listLeadEq : List Char → List Char → Bool
  | [], _ => true
  | _ :: _, [] => false
  | a :: as, b :: bs => a = b && listLeadEq as bs

/-- Substring containment over character lists (models SQL
`ilike '%pat%'` for a `%`-free pattern). -/
def listContains (pat : List Char) : List Char → Bool
  | [] => pat.isEmpty
  | c :: rest => listLeadEq pat (c :: rest) || listContains pat rest

/-! ## Content fingerprint (`contentHash` in the analyze route)

`Buffer.from(content.substring(0, 100) + content.length.toString())
  .toString('base64')`. -/

/-- UTF-8 encoding of one character (byte values as naturals). -/
def utf8Char (c : Char) : List Nat :=
  let n := c.toNat
  if n < 0x80 then [n]
  else if n < 0x800 then [0xC0 + n / 64, 0x80 + n % 64]
  else if n < 0x10000 then [0xE0 + n / 4096, 0x80 + n / 64 % 64, 0x80 + n % 64]
  else [0xF0 + n / 262144, 0x80 + n / 4096 % 64, 0x80 + n / 64 % 64, 0x80 + n % 64]

def utf8Bytes (s : String) : List Nat := s.data.flatMap utf8Char

def base64Chars : List Char :=
  "ABCDEFGHIJKLMNOPQRSTUVWXYZabcdefghijklmnopqrstuvwxyz0123456789+/".data

def b64Char (n : Nat) : Char := base64Chars.getD n 'A'

def base64Encode : List Nat → List Char
  | [] => []
  | [a] => [b64Char (a / 4), b64Char (a % 4 * 16), '=', '=']
  | [a, b] => [b64Char (a / 4), b64Char (a % 4 * 16 + b / 16), b64Char (b % 16 * 4), '=']
  | a :: b :: c :: rest =>
    b64Char (a / 4) :: b64Char (a % 4 * 16 + b / 16) ::
      b64Char (b % 16 * 4 + c / 64) :: b64Char (c % 64) :: base64Encode rest

/-- The analysis cache fingerprint: base64 of (first 100 characters of the
content followed by the decimal content length). -/
def contentHash (c : String) : String :=
  String.mk (base64Encode (utf8Bytes (String.mk (c.data.take 100) ++ toString c.data.length)))

/-- Redis key for the analysis cache entry of a given content. -/
def cacheKeyFor (c : String) : String := "summary:" ++ contentHash c

/-! ## Concept graph data model -/

structure Concept where
  id : String
  label : String
  theme : String
  importance : Int
deriving DecidableEq, Repr

structure Relationship where
  source : String
  target : String
  label : String
deriving DecidableEq, Repr

structure GraphData where
  concepts : List Concept
  relationships : List Relationship
deriving DecidableEq, Repr

def defaultConcept : Concept := ⟨"", "", "", 0⟩

/-- Theme pool of `getRandomTheme` (source order). -/
def themes : List String :=
  ["technology", "business", "science", "personal", "health", "philosophy"]

/-- Label pool of `getRandomRelationship` (source order). -/
def relationshipLabels : List String :=
  ["relates to", "influences", "depends on", "part of", "type of", "leads to"]

/-- The closed theme set of the AnalysisResult invariant. -/
def validThemes : List String :=
  ["technology", "business", "science", "philosophy", "personal", "health"]

/-- The AnalysisResult invariant: relationship endpoints reference concept
ids, importance lies in [1,3], themes belong to the closed set. -/
def graphInvariant (g : GraphData) : Prop :=
  (∀ r ∈ g.relationships,
      (∃ c ∈ g.concepts, c.id = r.source) ∧ (∃ c ∈ g.concepts, c.id = r.target)) ∧
  (∀ c ∈ g.concepts, 1 ≤ c.importance ∧ c.importance ≤ 3 ∧ c.theme ∈ validThemes)

/-! ## LocalFallbackGenerator -/

/-- Injected random choices for `generateKnowledgeGraph` and friends:
each `Math.floor(Math.random() * k)` pick, indexed by the loop position it
occurs at, as required by the seedability design note. -/
structure KGRandom where
  themeIdx : Nat → Fin 6
  importanceIdx : Nat → Fin 3
  connCount : Nat → Fin 3
  relIdx : Nat → Nat → Fin 6

/-- An arbitrary fixed seed (all picks zero). -/
def rngZero : KGRandom := ⟨fun _ => 0, fun _ => 0, fun _ => 0, fun _ _ => 0⟩

/-- `content.split(/\s+/).filter(word => word.length > 4)`. -/
def eligibleWords (content : String) : List String :=
  (splitWs content).filter (fun w => w.length > 4)

/-- `[...new Set(words)].slice(0, Math.min(10, words.length))`. -/
def selectedWords (content : String) : List String :=
  (dedupFirst (eligibleWords content)).take (min 10 (eligibleWords content).length)

/-- The `.map((word, index) => ...)` constructing concept records. -/
def mkConcepts (r : KGRandom) (ws : List String) : List Concept :=
  (List.range ws.length).map (fun i =>
    { id := "concept-" ++ toString i
      label := stripNonWord (ws.getD i "")
      theme := themes.getD (r.themeIdx i).val ""
      importance := ((r.importanceIdx i).val : Int) + 1 })

/-- The nested relationship loop: concept `i` gets `connCount i + 1`
outgoing edges, edge `j` targeting index `(i + j + 1) % concepts.length`. -/
def mkRelationships (r : KGRandom) (cs : List Concept) : List Relationship :=
  (List.range cs.length).flatMap (fun i =>
    (List.range ((r.connCount i).val + 1)).map (fun j =>
      { source := (cs.getD i defaultConcept).id
        target := (cs.getD ((i + j + 1) % cs.length) defaultConcept).id
        label := relationshipLabels.getD (r.relIdx i j).val "" }))

/-- `generateKnowledgeGraph` from the analyze route. -/
def generateKnowledgeGraph (r : KGRandom) (content : String) : GraphData :=
  let cs := mkConcepts r (selectedWords content)
  { concepts := cs, relationships := mkRelationships r cs }

/-- Topic pool of the long branch of `simulateAISummary`. -/
def topics : List String :=
  ["organization", "productivity", "creativity", "learning", "problem-solving"]

/-- `content.split(/\s+/).filter(Boolean).length`. -/
def wordCount (content : String) : Nat := (splitWs content).length

/-- `simulateAISummary`, with the random topic pick injected. -/
def simulateAISummary (topicIdx : Fin 5) (content : String) : String :=
  if content.length < 50 then
    "This note is quite brief. Consider adding more details to develop your thoughts further."
  else if content.length < 200 then
    "This is a short note that covers the basics. You might want to expand on key points to make it more comprehensive."
  else
    "This is a well-developed note with approximately " ++ toString (wordCount content) ++
      " words. The content appears to focus on " ++ topics.getD topicIdx.val "" ++
      ". Consider organizing your thoughts into sections for better clarity. The main ideas are clear, but you could strengthen your note by adding specific examples or action items."

/-! ## The analyze route (`POST /analyze`) -/

def MAX_REQUESTS_PER_USER : Nat := 10
def WINDOW_DURATION : Nat := 60 * 60
def MAX_CONTENT_LENGTH : Nat := 10000
def MINIMUM_REQUEST_INTERVAL : Nat := 10

/-- Outcome of one external provider call, as observed by the route: `ok`
carries the value the surrounding code would obtain (for the concept map,
the JSON the cleanup-and-parse pipeline produced), `fail` stands for any
timeout / network error / missing key / unparseable output. -/
inductive ProviderOutcome (α : Type)
  | ok (val : α)
  | fail
deriving DecidableEq

/-- The JSON payload of a 200 analyze response. -/
structure AnalyzePayload where
  summary : String
  graphData : GraphData
  notice : Option String
deriving DecidableEq, Repr

inductive Response
  | unauthorized
  | invalidContent
  | tooLarge
  | rateLimited (retryAfter : Int)
  | ok (payload : AnalyzePayload) (xcache : Option Bool)
  | internalError
deriving DecidableEq, Repr

/-- Redis-backed per-user and cache state read by the route. The request
count key carries its expiry (the key's TTL); reading it past expiry
yields 0 as in Redis. `cache` maps keys to live entries. -/
structure RedisState where
  requestCount : Nat
  countExpiresAt : Nat
  lastRequestTime : Nat
  cache : String → Option AnalyzePayload

/-- Everything one request observes: session, body, store state, clock and
the behavior of the two provider calls. -/
structure AnalyzeEnv where
  authenticated : Bool
  content : Option String
  redis : Option RedisState
  now : Nat
  summaryOutcome : ProviderOutcome String
  graphOutcome : ProviderOutcome GraphData
  rng : KGRandom
  topicIdx : Fin 5

/-- Result of a request: the response plus the observable side effects
(updated redis counters, whether a provider call was attempted, and the
cache write performed: key, payload, TTL seconds). -/
structure AnalyzeResult where
  response : Response
  redis : Option RedisState
  providerCalled : Bool
  cacheWrite : Option (String × AnalyzePayload × Nat)

/-- The value of `user:{id}:request_count` as read at time `now`. -/
def effCount (st : RedisState) (now : Nat) : Nat :=
  if now < st.countExpiresAt then st.requestCount else 0

/-- Side effects of an admitted request on the user's counters:
`redis.set(lastRequestTimeKey, currentTime)` plus
`redis.incr(requestCountKey); redis.expire(requestCountKey, WINDOW_DURATION)`
(both run on the cache-hit path and on the miss path). -/
def bumpState (st : RedisState) (now : Nat) : RedisState :=
  { st with
    lastRequestTime := now
    requestCount := effCount st now + 1
    countExpiresAt := now + WINDOW_DURATION }

/-- The inner try/catch around the two Gemini calls: a summary failure is
caught by the route and replaces BOTH pieces with local fallback plus the
notice; a concept-map failure is caught inside
`generateConceptMapWithGemini` and silently replaced by
`generateKnowledgeGraph`. Returns the payload and whether the catch
branch (full fallback) ran. -/
def providerPhase (env : AnalyzeEnv) (content : String) : AnalyzePayload × Bool :=
  match env.summaryOutcome with
  | .ok s =>
    let graph := match env.graphOutcome with
      | .ok g => g
      | .fail => generateKnowledgeGraph env.rng content
    (⟨s, graph, none⟩, false)
  | .fail =>
    (⟨simulateAISummary env.topicIdx content,
      generateKnowledgeGraph env.rng content,
      some "Using simulated analysis due to API error"⟩, true)

/-- The `POST /analyze` handler of `src/app/api/analyze/route.ts`. -/
def analyzePOST (env : AnalyzeEnv) : AnalyzeResult :=
  if ¬ env.authenticated then ⟨.unauthorized, env.redis, false, none⟩
  else
    match env.content with
    | none => ⟨.invalidContent, env.redis, false, none⟩
    | some content =>
      if content = "" then ⟨.invalidContent, env.redis, false, none⟩
      else if content.length > MAX_CONTENT_LENGTH then ⟨.tooLarge, env.redis, false, none⟩
      else
        match env.redis with
        | none =>
          let pr := providerPhase env content
          ⟨.ok pr.1 (if pr.2 then none else some false), none, true, none⟩
        | some st =>
          if effCount st env.now ≥ MAX_REQUESTS_PER_USER then
            ⟨.rateLimited (WINDOW_DURATION : Int), some st, false, none⟩
          else if (env.now : Int) - (st.lastRequestTime : Int) <
              (MINIMUM_REQUEST_INTERVAL : Int) then
            ⟨.rateLimited ((MINIMUM_REQUEST_INTERVAL : Int) -
              ((env.now : Int) - (st.lastRequestTime : Int))), some st, false, none⟩
          else
            match st.cache (cacheKeyFor content) with
            | some cached => ⟨.ok cached (some true), some (bumpState st env.now), false, none⟩
            | none =>
              let pr := providerPhase env content
              if pr.2 then ⟨.ok pr.1 none, some (bumpState st env.now), true, none⟩
              else
                ⟨.ok pr.1 (some false), some (bumpState st env.now), true,
                  some (cacheKeyFor content, pr.1, 24 * 60 * 60)⟩

/-! ## The search route (`POST /search`, text-first with semantic fallback) -/

structure Note where
  id : Nat
  title : String
  content : String
  userId : Nat
deriving DecidableEq, Repr

structure Bookmark where
  id : Nat
  title : String
  url : String
  userId : Nat
deriving DecidableEq, Repr

structure ScoredNote where
  note : Note
  similarity : ℚ
deriving DecidableEq, Repr

structure ScoredBookmark where
  bookmark : Bookmark
  similarity : ℚ
deriving DecidableEq, Repr

def MAX_RESULTS : Nat := 10

/-- `.ilike('title', exactQuery)` for a wildcard-free pattern:
case-insensitive equality with the whole column. -/
def exactTitleNotes (db : List Note) (uid : Nat) (q : String) : List Note :=
  (db.filter (fun n => n.userId = uid ∧ lowerStr n.title = q)).take MAX_RESULTS

/-- `.ilike('title', likeQuery)`: case-insensitive containment. -/
def subTitleNotes (db : List Note) (uid : Nat) (q : String) : List Note :=
  (db.filter (fun n => n.userId = uid ∧ listContains q.data (lowerStr n.title).data)).take MAX_RESULTS

/-- `.ilike('content', likeQuery)`. -/
def contentNotes (db : List Note) (uid : Nat) (q : String) : List Note :=
  (db.filter (fun n => n.userId = uid ∧ listContains q.data (lowerStr n.content).data)).take MAX_RESULTS

def exactTitleBookmarks (db : List Bookmark) (uid : Nat) (q : String) : List Bookmark :=
  (db.filter (fun b => b.userId = uid ∧ lowerStr b.title = q)).take MAX_RESULTS

def subTitleBookmarks (db : List Bookmark) (uid : Nat) (q : String) : List Bookmark :=
  (db.filter (fun b => b.userId = uid ∧ listContains q.data (lowerStr b.title).data)).take MAX_RESULTS

def urlBookmarks (db : List Bookmark) (uid : Nat) (q : String) : List Bookmark :=
  (db.filter (fun b => b.userId = uid ∧ listContains q.data (lowerStr b.url).data)).take MAX_RESULTS

/-- One tier of the combine-without-duplicates loop: push every row whose
id was not seen yet, tagging it with the tier's confidence score. Returns
the pushed rows and the grown seen-set. -/
def addScoredN (seen : List Nat) (l : List Note) (sc : ℚ) : List ScoredNote × List Nat :=
  match l with
  | [] => ([], seen)
  | n :: rest =>
    if n.id ∈ seen then addScoredN seen rest sc
    else
      let r := addScoredN (n.id :: seen) rest sc
      (⟨n, sc⟩ :: r.1, r.2)

def addScoredB (seen : List Nat) (l : List Bookmark) (sc : ℚ) : List ScoredBookmark × List Nat :=
  match l with
  | [] => ([], seen)
  | b :: rest =>
    if b.id ∈ seen then addScoredB seen rest sc
    else
      let r := addScoredB (b.id :: seen) rest sc
      (⟨b, sc⟩ :: r.1, r.2)

/-- The notes half of `performTextSearch`: exact title matches (0.95),
then partial title matches (0.85), then content matches (0.7),
deduplicated by id in that priority order. -/
def noteTextSearch (db : List Note) (uid : Nat) (q : String) : List ScoredNote :=
  let eq := normalizeQuery q
  let e := addScoredN [] (exactTitleNotes db uid eq) (95 / 100)
  let p := addScoredN e.2 (subTitleNotes db uid eq) (85 / 100)
  let c := addScoredN p.2 (contentNotes db uid eq) (7 / 10)
  e.1 ++ p.1 ++ c.1

/-- The bookmarks half of `performTextSearch` (url matches at 0.7). -/
def bookmarkTextSearch (db : List Bookmark) (uid : Nat) (q : String) : List ScoredBookmark :=
  let eq := normalizeQuery q
  let e := addScoredB [] (exactTitleBookmarks db uid eq) (95 / 100)
  let p := addScoredB e.2 (subTitleBookmarks db uid eq) (85 / 100)
  let c := addScoredB p.2 (urlBookmarks db uid eq) (7 / 10)
  e.1 ++ p.1 ++ c.1

inductive SearchMode
  | text
  | semantic
  | fallback
deriving DecidableEq, Repr

inductive SearchResp
  | unauthorized
  | invalidQuery
  | results (notes : List ScoredNote) (bookmarks : List ScoredBookmark) (mode : SearchMode)
deriving DecidableEq, Repr

/-- Environment of one search request; `semanticNotes` / `semanticBookmarks`
are what the `match_notes` / `match_bookmarks` RPCs would return if the
semantic branch runs. -/
structure SearchEnv where
  authenticated : Bool
  query : Option String
  stype : String
  notesDb : List Note
  bookmarksDb : List Bookmark
  userId : Nat
  semanticNotes : List ScoredNote
  semanticBookmarks : List ScoredBookmark

def textNotesOf (env : SearchEnv) (q : String) : List ScoredNote :=
  if env.stype = "all" ∨ env.stype = "notes" then
    noteTextSearch env.notesDb env.userId q
  else []

def textBookmarksOf (env : SearchEnv) (q : String) : List ScoredBookmark :=
  if env.stype = "all" ∨ env.stype = "bookmarks" then
    bookmarkTextSearch env.bookmarksDb env.userId q
  else []

/-- `hasResults` of `performTextSearch`. -/
def textHasResults (env : SearchEnv) (q : String) : Bool :=
  !(textNotesOf env q).isEmpty || !(textBookmarksOf env q).isEmpty

/-- The `POST /search` handler: direct text match first; only when it is
empty, generate/fetch a query embedding and run the similarity RPCs; if
those return nothing either, fall back to the (empty) text results.
The boolean records whether the embedding path was consulted. -/
def searchPOST (env : SearchEnv) : SearchResp × Bool :=
  if ¬ env.authenticated then (.unauthorized, false)
  else
    match env.query with
    | none => (.invalidQuery, false)
    | some q =>
      if q = "" then (.invalidQuery, false)
      else
        let tn := textNotesOf env q
        let tb := textBookmarksOf env q
        if textHasResults env q then (.results tn tb .text, false)
        else
          let sn := if env.stype = "all" ∨ env.stype = "notes" then env.semanticNotes else []
          let sb := if env.stype = "all" ∨ env.stype = "bookmarks" then env.semanticBookmarks else []
          if sn.isEmpty && sb.isEmpty then (.results tn tb .fallback, true)
          else (.results sn sb .semantic, true)

/-! ## The local vector generator (`simpleTextToVector`)

The code accumulates `charCode / 255` into `vector[i % dimensions]` and
then divides every entry by `magnitude || 1` where `magnitude` is the
Euclidean norm. The accumulation is exact rational arithmetic here; the
square root is kept symbolic (a real `m` with `m ≥ 0` and
`m ^ 2 = sumSq v`), so the divide-by-zero guard `magnitude || 1` appears
as `if m = 0 then 1 else m`. -/

/-- The accumulation loop: `vector[i % dimensions] += charCode / 255`. -/
def accumVecAux (v : List ℚ) (codes : List Nat) (i : Nat) (dims : Nat) : List ℚ :=
  match codes with
  | [] => v
  | c :: rest =>
    accumVecAux (v.set (i % dims) (v.getD (i % dims) 0 + (c : ℚ) / 255)) rest (i + 1) dims

/-- The accumulated (pre-normalization) vector of `simpleTextToVector`,
from the text's character codes. -/
def accumVec (codes : List Nat) (dims : Nat) : List ℚ :=
  accumVecAux (List.replicate dims 0) codes 0 dims

/-- Sum of squares of the entries (the square of the magnitude). -/
def sumSq (v : List ℚ) : ℚ := (v.map (fun x => x * x)).sum

/-! ## Concrete instances used as counterexamples and witnesses -/

/-- A seed on which every concept asks for two outgoing connections. -/
def rngTwo : KGRandom := ⟨fun _ => 0, fun _ => 0, fun _ => 1, fun _ _ => 0⟩

/-- An empty cache keyed store with a fresh user (all counters absent). -/
def freshStore : RedisState :=
  { requestCount := 0, countExpiresAt := 0, lastRequestTime := 0, cache := fun _ => none }

/-- Base request: authenticated, short valid content, fresh user state at
`now = 100`, both provider calls failing. -/
def envBase : AnalyzeEnv :=
  { authenticated := true
    content := some "hello world"
    redis := some freshStore
    now := 100
    summaryOutcome := .fail
    graphOutcome := .fail
    rng := rngZero
    topicIdx := 0 }

/-- A user who exhausted the quota (`request_count = 10`) in a window with
100 seconds left to run (`countExpiresAt = 150`, `now = 50`). -/
def envQuota : AnalyzeEnv :=
  { envBase with
    redis := some { freshStore with requestCount := 10, countExpiresAt := 150 }
    now := 50 }

/-- Summary provider succeeds, concept-map provider fails. -/
def envGraphFail : AnalyzeEnv :=
  { envBase with summaryOutcome := .ok "S", graphOutcome := .fail }

/-- A provider concept graph that violates every part of the
AnalysisResult invariant: unknown theme, importance outside [1,3], and a
relationship to a nonexistent concept id. -/
def badGraph : GraphData :=
  { concepts := [⟨"c1", "x", "astrology", 7⟩]
    relationships := [⟨"c1", "ghost", "relates to"⟩] }

/-- Both provider calls succeed, the concept-map call returning
`badGraph`. -/
def envBadGraph : AnalyzeEnv :=
  { envBase with summaryOutcome := .ok "S", graphOutcome := .ok badGraph }

/-- A cache entry distinct from anything the providers would produce. -/
def cachedPayload : AnalyzePayload :=
  ⟨"cached summary", ⟨[], []⟩, none⟩

/-- Same fresh user but with a live cache entry for the content. -/
def envHit : AnalyzeEnv :=
  { envBase with
    redis := some { freshStore with
      cache := fun k => if k = cacheKeyFor "hello world" then some cachedPayload else none } }

/-- 100 copies of `'a'` followed by a final differing character: two
different bodies sharing their first 100 characters and their length. -/
def collideA : String := String.mk (List.replicate 100 'a') ++ "b"

def collideB : String := String.mk (List.replicate 100 'a') ++ "c"

/-- A one-note store whose title matches the search query of the
scenario-F witness up to case. -/
def demoNote : Note := { id := 1, title := "My Note", content := "some stuff", userId := 7 }

def envSearch : SearchEnv :=
  { authenticated := true
    query := some "my note"
    stype := "all"
    notesDb := [demoNote]
    bookmarksDb := []
    userId := 7
    semanticNotes := []
    semanticBookmarks := [] }

/-! ## Helper lemmas: the provider phase and the analyze branches -/

theorem providerPhase_fail {env : AnalyzeEnv} (c : String)
    (hs : env.summaryOutcome = .fail) :
    providerPhase env c =
      (⟨simulateAISummary env.topicIdx c, generateKnowledgeGraph env.rng c,
        some "Using simulated analysis due to API error"⟩, true) := by
  simp [providerPhase, hs]

theorem providerPhase_ok_ok {env : AnalyzeEnv} (c : String) {s : String} {g : GraphData}
    (hs : env.summaryOutcome = .ok s) (hg : env.graphOutcome = .ok g) :
    providerPhase env c = (⟨s, g, none⟩, false) := by
  simp [providerPhase, hs, hg]

theorem providerPhase_ok_fail {env : AnalyzeEnv} (c : String) {s : String}
    (hs : env.summaryOutcome = .ok s) (hg : env.graphOutcome = .fail) :
    providerPhase env c = (⟨s, generateKnowledgeGraph env.rng c, none⟩, false) := by
  simp [providerPhase, hs, hg]

theorem analyzePOST_redis_none {env : AnalyzeEnv} {c : String}
    (hauth : env.authenticated = true) (hc : env.content = some c)
    (hne : c ≠ "") (hlen : ¬ c.length > MAX_CONTENT_LENGTH) (hr : env.redis = none) :
    analyzePOST env =
      ⟨.ok (providerPhase env c).1 (if (providerPhase env c).2 then none else some false),
       none, true, none⟩ := by
  simp only [analyzePOST, hauth, hc, hr, not_true_eq_false, if_false, if_neg hne, if_neg hlen]

theorem analyzePOST_quota {env : AnalyzeEnv} {st : RedisState} {c : String}
    (hauth : env.authenticated = true) (hc : env.content = some c)
    (hne : c ≠ "") (hlen : ¬ c.length > MAX_CONTENT_LENGTH) (hr : env.redis = some st)
    (hq : effCount st env.now ≥ MAX_REQUESTS_PER_USER) :
    analyzePOST env = ⟨.rateLimited (WINDOW_DURATION : Int), some st, false, none⟩ := by
  simp [analyzePOST, hauth, hc, hr, hne, hlen, hq]

theorem analyzePOST_cooldown {env : AnalyzeEnv} {st : RedisState} {c : String}
    (hauth : env.authenticated = true) (hc : env.content = some c)
    (hne : c ≠ "") (hlen : ¬ c.length > MAX_CONTENT_LENGTH) (hr : env.redis = some st)
    (hq : effCount st env.now < MAX_REQUESTS_PER_USER)
    (hcd : (env.now : Int) - (st.lastRequestTime : Int) < (MINIMUM_REQUEST_INTERVAL : Int)) :
    analyzePOST env =
      ⟨.rateLimited ((MINIMUM_REQUEST_INTERVAL : Int) -
        ((env.now : Int) - (st.lastRequestTime : Int))), some st, false, none⟩ := by
  simp [analyzePOST, hauth, hc, hr, hne, hlen, Nat.not_le.mpr hq, hcd]

theorem analyzePOST_hit {env : AnalyzeEnv} {st : RedisState} {c : String} {p : AnalyzePayload}
    (hauth : env.authenticated = true) (hc : env.content = some c)
    (hne : c ≠ "") (hlen : ¬ c.length > MAX_CONTENT_LENGTH) (hr : env.redis = some st)
    (hq : effCount st env.now < MAX_REQUESTS_PER_USER)
    (hcd : ¬ (env.now : Int) - (st.lastRequestTime : Int) < (MINIMUM_REQUEST_INTERVAL : Int))
    (hhit : st.cache (cacheKeyFor c) = some p) :
    analyzePOST env = ⟨.ok p (some true), some (bumpState st env.now), false, none⟩ := by
  simp [analyzePOST, hauth, hc, hr, hne, hlen, Nat.not_le.mpr hq, hcd, hhit]

theorem analyzePOST_miss {env : AnalyzeEnv} {st : RedisState} {c : String}
    (hauth : env.authenticated = true) (hc : env.content = some c)
    (hne : c ≠ "") (hlen : ¬ c.length > MAX_CONTENT_LENGTH) (hr : env.redis = some st)
    (hq : effCount st env.now < MAX_REQUESTS_PER_USER)
    (hcd : ¬ (env.now : Int) - (st.lastRequestTime : Int) < (MINIMUM_REQUEST_INTERVAL : Int))
    (hmiss : st.cache (cacheKeyFor c) = none) :
    analyzePOST env =
      ⟨.ok (providerPhase env c).1 (if (providerPhase env c).2 then none else some false),
       some (bumpState st env.now), true,
       if (providerPhase env c).2 then none
       else some (cacheKeyFor c, (providerPhase env c).1, 24 * 60 * 60)⟩ := by
  simp only [analyzePOST, hauth, hc, hr, not_true_eq_false, if_false, if_neg hne, if_neg hlen,
    if_neg (Nat.not_le.mpr hq), if_neg hcd, hmiss]
  split <;> simp_all

/-- Every branch of `simulateAISummary` yields a non-empty string. -/
theorem simulateAISummary_ne_empty (t : Fin 5) (c : String) :
    simulateAISummary t c ≠ "" := by
  unfold simulateAISummary
  split
  · decide
  split
  · decide
  intro h
  have h1 := congrArg String.length h
  rw [String.length_append, String.length_append, String.length_append,
    String.length_append] at h1
  have h2 : 0 < "This is a well-developed note with approximately ".length := by decide
  have h0 : String.length "" = 0 := rfl
  rw [h0] at h1
  omega

/-! ## Claim C1 -/

/-- Claim C1: for an authenticated request with valid content (non-empty,
within the length bound) on which every provider call fails, whenever the
provider phase is reached the response is a 200 whose payload carries the
locally generated non-empty summary, the locally generated concept graph
and the informational notice; and no provider failure produces the
internal-error (5xx) response. -/
theorem c1_provider_failure_recovered (env : AnalyzeEnv) (c : String)
    (hauth : env.authenticated = true) (hc : env.content = some c)
    (hne : c ≠ "") (hlen : ¬ c.length > MAX_CONTENT_LENGTH)
    (hs : env.summaryOutcome = .fail) (hg : env.graphOutcome = .fail) :
    (analyzePOST env).response ≠ .internalError ∧
    ((analyzePOST env).providerCalled = true →
      (analyzePOST env).response =
        .ok ⟨simulateAISummary env.topicIdx c, generateKnowledgeGraph env.rng c,
             some "Using simulated analysis due to API error"⟩ none ∧
      simulateAISummary env.topicIdx c ≠ "") := by
  cases hr : env.redis with
  | none =>
    rw [analyzePOST_redis_none hauth hc hne hlen hr, providerPhase_fail c hs]
    exact ⟨by simp, fun _ => ⟨rfl, simulateAISummary_ne_empty _ _⟩⟩
  | some st =>
    rcases Nat.lt_or_ge (effCount st env.now) MAX_REQUESTS_PER_USER with hq | hq
    · by_cases hcd : (env.now : Int) - (st.lastRequestTime : Int) <
        (MINIMUM_REQUEST_INTERVAL : Int)
      · rw [analyzePOST_cooldown hauth hc hne hlen hr hq hcd]
        exact ⟨by simp, by simp⟩
      · cases hhit : st.cache (cacheKeyFor c) with
        | some p =>
          rw [analyzePOST_hit hauth hc hne hlen hr hq hcd hhit]
          exact ⟨by simp, by simp⟩
        | none =>
          rw [analyzePOST_miss hauth hc hne hlen hr hq hcd hhit, providerPhase_fail c hs]
          exact ⟨by simp, fun _ => ⟨rfl, simulateAISummary_ne_empty _ _⟩⟩
    · rw [analyzePOST_quota hauth hc hne hlen hr hq]
      exact ⟨by simp, by simp⟩

/-- Witness for C1 at a concrete admitted request whose provider calls
both fail. -/
theorem c1_witness :
    (analyzePOST envBase).response ≠ .internalError ∧
    (analyzePOST envBase).response =
      .ok ⟨simulateAISummary 0 "hello world", generateKnowledgeGraph rngZero "hello world",
           some "Using simulated analysis due to API error"⟩ none ∧
    simulateAISummary 0 "hello world" ≠ "" := by
  have h := c1_provider_failure_recovered envBase "hello world" rfl rfl (by decide)
    (by decide) rfl rfl
  exact ⟨h.1, h.2 (by decide)⟩

/-! ## Claim C2 -/

/-- Counterexample to claim C2: a user at the quota limit whose window has
100 seconds left (`countExpiresAt = 150`, `now = 50`) is rejected with
`retry_after = 3600` (the full window duration), not the remaining window
time 100. -/
theorem c2_counterexample :
    (analyzePOST envQuota).response = Response.rateLimited 3600 ∧
    envQuota.redis = some { freshStore with requestCount := 10, countExpiresAt := 150 } ∧
    150 - envQuota.now = 100 ∧
    (3600 : Int) ≠ 100 := by
  exact ⟨by decide, rfl, by decide, by decide⟩

/-- Claim C2 (amended): the quota gate rejects with 429 and `retry_after`
equal to the FULL window duration (3600), regardless of remaining window
time; then the cooldown gate rejects with the remaining cooldown; else
the request is admitted (a 200 response). -/
theorem c2_amended (env : AnalyzeEnv) (st : RedisState) (c : String)
    (hauth : env.authenticated = true) (hc : env.content = some c)
    (hne : c ≠ "") (hlen : ¬ c.length > MAX_CONTENT_LENGTH)
    (hr : env.redis = some st) :
    (effCount st env.now ≥ MAX_REQUESTS_PER_USER →
      (analyzePOST env).response = .rateLimited (WINDOW_DURATION : Int)) ∧
    (effCount st env.now < MAX_REQUESTS_PER_USER →
      ((env.now : Int) - (st.lastRequestTime : Int) < (MINIMUM_REQUEST_INTERVAL : Int) →
        (analyzePOST env).response =
          .rateLimited ((MINIMUM_REQUEST_INTERVAL : Int) -
            ((env.now : Int) - (st.lastRequestTime : Int)))) ∧
      (¬ (env.now : Int) - (st.lastRequestTime : Int) < (MINIMUM_REQUEST_INTERVAL : Int) →
        ∃ p x, (analyzePOST env).response = .ok p x)) := by
  refine ⟨fun hq => ?_, fun hq => ⟨fun hcd => ?_, fun hcd => ?_⟩⟩
  · rw [analyzePOST_quota hauth hc hne hlen hr hq]
  · rw [analyzePOST_cooldown hauth hc hne hlen hr hq hcd]
  · cases hhit : st.cache (cacheKeyFor c) with
    | some p =>
      rw [analyzePOST_hit hauth hc hne hlen hr hq hcd hhit]
      exact ⟨p, some true, rfl⟩
    | none =>
      rw [analyzePOST_miss hauth hc hne hlen hr hq hcd hhit]
      exact ⟨(providerPhase env c).1, _, rfl⟩

/-- Witness for C2 (amended): a fresh user passing both gates is
admitted. -/
theorem c2_witness :
    ∃ p x, (analyzePOST envBase).response = Response.ok p x :=
  ((c2_amended envBase freshStore "hello world" rfl rfl (by decide) (by decide)
    rfl).2 (by decide)).2 (by decide)

/-! ## Claim C3 -/

/-- Counterexample to claim C3: when only the concept-map call fails
(summary succeeded), the graph piece IS replaced by the local fallback
generator yet the response carries NO notice (`notice = none`), refuting
"a notice field is attached to the response whenever any piece was
replaced". -/
theorem c3_counterexample :
    envGraphFail.graphOutcome = ProviderOutcome.fail ∧
    (analyzePOST envGraphFail).response =
      Response.ok ⟨"S", generateKnowledgeGraph rngZero "hello world", none⟩ (some false) :=
  ⟨rfl, by decide⟩

/-- Claim C3 (amended): a concept-map failure alone replaces only the
graph piece (the summary is kept) but attaches NO notice; when both calls
succeed both provider values pass through; a summary failure forces BOTH
pieces to local fallback — the concept-map provider is not consulted
independently — and exactly then the notice is attached. -/
theorem c3_amended (env : AnalyzeEnv) (c : String)
    (hauth : env.authenticated = true) (hc : env.content = some c)
    (hne : c ≠ "") (hlen : ¬ c.length > MAX_CONTENT_LENGTH)
    (hp : (analyzePOST env).providerCalled = true) :
    (∀ s, env.summaryOutcome = .ok s → env.graphOutcome = .fail →
      (analyzePOST env).response =
        .ok ⟨s, generateKnowledgeGraph env.rng c, none⟩ (some false)) ∧
    (∀ s g, env.summaryOutcome = .ok s → env.graphOutcome = .ok g →
      (analyzePOST env).response = .ok ⟨s, g, none⟩ (some false)) ∧
    (env.summaryOutcome = .fail →
      (analyzePOST env).response =
        .ok ⟨simulateAISummary env.topicIdx c, generateKnowledgeGraph env.rng c,
             some "Using simulated analysis due to API error"⟩ none) := by
  cases hr : env.redis with
  | none =>
    refine ⟨fun s hs hg => ?_, fun s g hs hg => ?_, fun hs => ?_⟩
    · rw [analyzePOST_redis_none hauth hc hne hlen hr, providerPhase_ok_fail c hs hg]; rfl
    · rw [analyzePOST_redis_none hauth hc hne hlen hr, providerPhase_ok_ok c hs hg]; rfl
    · rw [analyzePOST_redis_none hauth hc hne hlen hr, providerPhase_fail c hs]; rfl
  | some st =>
    rcases Nat.lt_or_ge (effCount st env.now) MAX_REQUESTS_PER_USER with hq | hq
    · by_cases hcd : (env.now : Int) - (st.lastRequestTime : Int) <
        (MINIMUM_REQUEST_INTERVAL : Int)
      · rw [analyzePOST_cooldown hauth hc hne hlen hr hq hcd] at hp
        exact absurd hp (by simp)
      · cases hhit : st.cache (cacheKeyFor c) with
        | some p =>
          rw [analyzePOST_hit hauth hc hne hlen hr hq hcd hhit] at hp
          exact absurd hp (by simp)
        | none =>
          refine ⟨fun s hs hg => ?_, fun s g hs hg => ?_, fun hs => ?_⟩
          · rw [analyzePOST_miss hauth hc hne hlen hr hq hcd hhit,
              providerPhase_ok_fail c hs hg]
            rfl
          · rw [analyzePOST_miss hauth hc hne hlen hr hq hcd hhit,
              providerPhase_ok_ok c hs hg]
            rfl
          · rw [analyzePOST_miss hauth hc hne hlen hr hq hcd hhit, providerPhase_fail c hs]; rfl
    · rw [analyzePOST_quota hauth hc hne hlen hr hq] at hp
      exact absurd hp (by simp)

/-- Witness for C3 (amended) at the graph-failure environment. -/
theorem c3_witness :
    (analyzePOST envGraphFail).response =
      Response.ok ⟨"S", generateKnowledgeGraph envGraphFail.rng "hello world", none⟩
        (some false) :=
  (c3_amended envGraphFail "hello world" rfl rfl (by decide) (by decide)
    (by decide)).1 "S" rfl rfl

/-! ## Claim C4 -/

/-- Counterexample to claim C4: an admitted cache-miss request whose
summary provider call fails is served locally generated fallback output
(the notice is attached) but NO cache write happens at all — the fallback
result is not cached, under any tag or TTL. -/
theorem c4_counterexample :
    (analyzePOST envBase).cacheWrite = none ∧
    (analyzePOST envBase).response =
      Response.ok ⟨simulateAISummary 0 "hello world",
        generateKnowledgeGraph rngZero "hello world",
        some "Using simulated analysis due to API error"⟩ none :=
  ⟨by decide, by decide⟩

/-- Claim C4 (amended): on the admitted cache-miss path, a full-fallback
response (summary call failed) is never written to the cache; a response
produced while the summary call succeeded is written under the single
`summary:` key with the 24-hour TTL — even when its graph piece is the
local fallback — so there is no separate fallback tag or shorter TTL. -/
theorem c4_amended (env : AnalyzeEnv) (st : RedisState) (c : String)
    (hauth : env.authenticated = true) (hc : env.content = some c)
    (hne : c ≠ "") (hlen : ¬ c.length > MAX_CONTENT_LENGTH)
    (hr : env.redis = some st)
    (hq : effCount st env.now < MAX_REQUESTS_PER_USER)
    (hcd : ¬ (env.now : Int) - (st.lastRequestTime : Int) < (MINIMUM_REQUEST_INTERVAL : Int))
    (hmiss : st.cache (cacheKeyFor c) = none) :
    (env.summaryOutcome = .fail → (analyzePOST env).cacheWrite = none) ∧
    (∀ s g, env.summaryOutcome = .ok s → env.graphOutcome = .ok g →
      (analyzePOST env).cacheWrite =
        some (cacheKeyFor c, ⟨s, g, none⟩, 24 * 60 * 60)) ∧
    (∀ s, env.summaryOutcome = .ok s → env.graphOutcome = .fail →
      (analyzePOST env).cacheWrite =
        some (cacheKeyFor c, ⟨s, generateKnowledgeGraph env.rng c, none⟩, 24 * 60 * 60)) := by
  refine ⟨fun hs => ?_, fun s g hs hg => ?_, fun s hs hg => ?_⟩
  · rw [analyzePOST_miss hauth hc hne hlen hr hq hcd hmiss, providerPhase_fail c hs]; rfl
  · rw [analyzePOST_miss hauth hc hne hlen hr hq hcd hmiss, providerPhase_ok_ok c hs hg]; rfl
  · rw [analyzePOST_miss hauth hc hne hlen hr hq hcd hmiss, providerPhase_ok_fail c hs hg]; rfl

/-- Witness for C4 (amended): the graph-fallback payload is cached under
the `summary:` key with the 24-hour TTL. -/
theorem c4_witness :
    (analyzePOST envGraphFail).cacheWrite =
      some (cacheKeyFor "hello world",
        ⟨"S", generateKnowledgeGraph envGraphFail.rng "hello world", none⟩, 24 * 60 * 60) :=
  (c4_amended envGraphFail freshStore "hello world" rfl rfl (by decide) (by decide)
    rfl (by decide) (by decide) rfl).2.2 "S" rfl rfl

/-! ## Claim C5 -/

/-- Counterexample to claim C5: two different contents that share their
first 100 characters and their length receive the same fingerprint — the
`first 100 chars + length` scheme admits exactly the systematic collision
family the claim rules out. -/
theorem c5_counterexample :
    collideA ≠ collideB ∧
    collideA.data.take 100 = collideB.data.take 100 ∧
    collideA.data.length = collideB.data.length ∧
    contentHash collideA = contentHash collideB := by
  refine ⟨by decide, by decide, by decide, ?_⟩
  set_option maxRecDepth 40000 in decide

/-- Claim C5 (amended): the fingerprint is deterministic, but any two
inputs sharing their first 100 characters and their character count
always collide, however their bodies differ beyond the prefix. -/
theorem c5_amended :
    (∀ x : String, contentHash x = contentHash x) ∧
    (∀ x y : String, x.data.take 100 = y.data.take 100 →
      x.data.length = y.data.length → contentHash x = contentHash y) := by
  refine ⟨fun x => rfl, fun x y h1 h2 => ?_⟩
  unfold contentHash
  rw [h1, h2]

/-- Witness for C5 (amended) at the concrete colliding pair. -/
theorem c5_witness : contentHash collideA = contentHash collideB :=
  c5_amended.2 collideA collideB (by decide) (by decide)

/-! ## Claim C6 -/

/-- Claim C6: an admitted request whose fingerprint has a live cache
entry is answered with the cached payload verbatim (X-Cache HIT), no
provider call is made, no cache write happens, and the request still
increments `request_count` (re-arming the window TTL) and sets
`last_request_at` to now — the same counter updates as the corresponding
cache-miss request. -/
theorem c6_cache_hit (env : AnalyzeEnv) (st : RedisState) (c : String) (p : AnalyzePayload)
    (hauth : env.authenticated = true) (hc : env.content = some c)
    (hne : c ≠ "") (hlen : ¬ c.length > MAX_CONTENT_LENGTH)
    (hr : env.redis = some st)
    (hq : effCount st env.now < MAX_REQUESTS_PER_USER)
    (hcd : ¬ (env.now : Int) - (st.lastRequestTime : Int) < (MINIMUM_REQUEST_INTERVAL : Int))
    (hhit : st.cache (cacheKeyFor c) = some p) :
    (analyzePOST env).response = .ok p (some true) ∧
    (analyzePOST env).providerCalled = false ∧
    (analyzePOST env).cacheWrite = none ∧
    (analyzePOST env).redis = some (bumpState st env.now) ∧
    (bumpState st env.now).requestCount = effCount st env.now + 1 ∧
    (bumpState st env.now).lastRequestTime = env.now ∧
    (bumpState st env.now).countExpiresAt = env.now + WINDOW_DURATION ∧
    ((analyzePOST { env with redis := some { st with cache := fun _ => none } }).redis.map
        (fun s => (s.requestCount, s.lastRequestTime, s.countExpiresAt)) =
      (analyzePOST env).redis.map
        (fun s => (s.requestCount, s.lastRequestTime, s.countExpiresAt))) := by
  have hmain := analyzePOST_hit hauth hc hne hlen hr hq hcd hhit
  have hmiss := @analyzePOST_miss { env with redis := some { st with cache := fun _ => none } }
    { st with cache := fun _ => none } c hauth hc hne hlen rfl hq hcd rfl
  rw [hmain, hmiss]
  refine ⟨rfl, rfl, rfl, rfl, rfl, rfl, rfl, ?_⟩
  by_cases hfb : (providerPhase { env with redis := some { st with cache := fun _ => none } } c).2
  · simp [hfb, bumpState, effCount]
  · simp [hfb, bumpState, effCount]

/-- Witness for C6 at a concrete cache hit. -/
theorem c6_witness :
    (analyzePOST envHit).response = Response.ok cachedPayload (some true) ∧
    (analyzePOST envHit).providerCalled = false ∧
    (analyzePOST envHit).redis =
      some (bumpState { freshStore with
        cache := fun k => if k = cacheKeyFor "hello world" then some cachedPayload else none }
        envHit.now) := by
  have h := c6_cache_hit envHit
    { freshStore with
      cache := fun k => if k = cacheKeyFor "hello world" then some cachedPayload else none }
    "hello world" cachedPayload rfl rfl (by decide) (by decide) rfl (by decide) (by decide)
    (by show (if cacheKeyFor "hello world" = cacheKeyFor "hello world" then
        some cachedPayload else none) = some cachedPayload
        rw [if_pos rfl])
  exact ⟨h.1, h.2.1, h.2.2.2.1⟩

/-! ## Helper lemmas: the fallback knowledge graph -/

theorem getD_mem_of_lt {α : Type} (l : List α) (i : Nat) (d : α) (h : i < l.length) :
    l.getD i d ∈ l := by
  rw [List.getD_eq_getElem l d h]
  exact List.getElem_mem h

theorem mem_mkConcepts {r : KGRandom} {ws : List String} {cpt : Concept} :
    cpt ∈ mkConcepts r ws ↔ ∃ i, i < ws.length ∧
      cpt = { id := "concept-" ++ toString i
              label := stripNonWord (ws.getD i "")
              theme := themes.getD (r.themeIdx i).val ""
              importance := ((r.importanceIdx i).val : Int) + 1 } := by
  simp only [mkConcepts, List.mem_map, List.mem_range]
  constructor
  · rintro ⟨i, hi, rfl⟩; exact ⟨i, hi, rfl⟩
  · rintro ⟨i, hi, rfl⟩; exact ⟨i, hi, rfl⟩

theorem mem_mkRelationships {r : KGRandom} {cs : List Concept} {rel : Relationship} :
    rel ∈ mkRelationships r cs ↔ ∃ i, i < cs.length ∧ ∃ j, j < (r.connCount i).val + 1 ∧
      rel = { source := (cs.getD i defaultConcept).id
              target := (cs.getD ((i + j + 1) % cs.length) defaultConcept).id
              label := relationshipLabels.getD (r.relIdx i j).val "" } := by
  simp only [mkRelationships, List.mem_flatMap, List.mem_map, List.mem_range]
  constructor
  · rintro ⟨i, hi, j, hj, rfl⟩; exact ⟨i, hi, j, hj, rfl⟩
  · rintro ⟨i, hi, j, hj, rfl⟩; exact ⟨i, hi, j, hj, rfl⟩

theorem theme_mem_validThemes (k : Fin 6) : themes.getD k.val "" ∈ validThemes := by
  have : ∀ k : Fin 6, themes.getD k.val "" ∈ validThemes := by decide
  exact this k

/-- The local fallback graph always satisfies the AnalysisResult
invariant. -/
theorem gkg_invariant (r : KGRandom) (content : String) :
    graphInvariant (generateKnowledgeGraph r content) := by
  unfold generateKnowledgeGraph graphInvariant
  constructor
  · intro rel hrel
    rw [mem_mkRelationships] at hrel
    obtain ⟨i, hi, j, hj, rfl⟩ := hrel
    have hpos : 0 < (mkConcepts r (selectedWords content)).length :=
      lt_of_le_of_lt (Nat.zero_le i) hi
    have htlt : (i + j + 1) % (mkConcepts r (selectedWords content)).length <
        (mkConcepts r (selectedWords content)).length := Nat.mod_lt _ hpos
    exact ⟨⟨_, getD_mem_of_lt _ _ _ hi, rfl⟩, ⟨_, getD_mem_of_lt _ _ _ htlt, rfl⟩⟩
  · intro cpt hcpt
    rw [mem_mkConcepts] at hcpt
    obtain ⟨i, _, rfl⟩ := hcpt
    have hlt := (r.importanceIdx i).isLt
    refine ⟨?_, ?_, theme_mem_validThemes _⟩
    · show (1 : Int) ≤ ((r.importanceIdx i).val : Int) + 1
      omega
    · show ((r.importanceIdx i).val : Int) + 1 ≤ 3
      omega

/-! ## Claim C7 -/

/-- Counterexample to claim C7: a parsed provider concept graph with an
unknown theme, an importance of 7 and a relationship to a nonexistent
concept id is returned to the caller unchanged — provider output is not
validated, coerced or rejected. -/
theorem c7_counterexample :
    (analyzePOST envBadGraph).response = Response.ok ⟨"S", badGraph, none⟩ (some false) ∧
    ¬ graphInvariant badGraph :=
  ⟨by decide, by unfold graphInvariant; decide⟩

/-- Claim C7 (amended): every concept graph produced by the LOCAL
fallback generator satisfies the AnalysisResult invariant (endpoints
reference existing concept ids, importance in [1,3], theme in the closed
set); but a successfully parsed provider graph is passed through to the
response verbatim, with no validation against the invariant. -/
theorem c7_amended :
    (∀ (r : KGRandom) (content : String), graphInvariant (generateKnowledgeGraph r content)) ∧
    (∀ (env : AnalyzeEnv) (c s : String) (g : GraphData),
      env.authenticated = true → env.content = some c → c ≠ "" →
      ¬ c.length > MAX_CONTENT_LENGTH → env.summaryOutcome = .ok s →
      env.graphOutcome = .ok g → (analyzePOST env).providerCalled = true →
      (analyzePOST env).response = .ok ⟨s, g, none⟩ (some false)) := by
  refine ⟨gkg_invariant, fun env c s g hauth hc hne hlen hs hg hp => ?_⟩
  cases hr : env.redis with
  | none =>
    rw [analyzePOST_redis_none hauth hc hne hlen hr, providerPhase_ok_ok c hs hg]
    rfl
  | some st =>
    rcases Nat.lt_or_ge (effCount st env.now) MAX_REQUESTS_PER_USER with hq | hq
    · by_cases hcd : (env.now : Int) - (st.lastRequestTime : Int) <
        (MINIMUM_REQUEST_INTERVAL : Int)
      · rw [analyzePOST_cooldown hauth hc hne hlen hr hq hcd] at hp
        exact absurd hp (by simp)
      · cases hhit : st.cache (cacheKeyFor c) with
        | some p =>
          rw [analyzePOST_hit hauth hc hne hlen hr hq hcd hhit] at hp
          exact absurd hp (by simp)
        | none =>
          rw [analyzePOST_miss hauth hc hne hlen hr hq hcd hhit, providerPhase_ok_ok c hs hg]
          rfl
    · rw [analyzePOST_quota hauth hc hne hlen hr hq] at hp
      exact absurd hp (by simp)

/-- Witness for C7 (amended): the fallback graph of a concrete seed and
content satisfies the invariant, and the concrete bad provider graph is
passed through. -/
theorem c7_witness :
    graphInvariant (generateKnowledgeGraph rngZero "hello world") ∧
    (analyzePOST envBadGraph).response = Response.ok ⟨"S", badGraph, none⟩ (some false) :=
  ⟨c7_amended.1 rngZero "hello world",
   c7_amended.2 envBadGraph "hello world" "S" badGraph rfl rfl (by decide) (by decide)
     rfl rfl (by decide)⟩

/-! ## Helper lemmas: counting relationships per concept -/

theorem conceptId_inj10 : ∀ i < 10, ∀ j < 10,
    ("concept-" ++ toString i) = ("concept-" ++ toString j) → i = j := by decide

theorem mkConcepts_length (r : KGRandom) (ws : List String) :
    (mkConcepts r ws).length = ws.length := by
  simp [mkConcepts]

theorem mkConcepts_getD (r : KGRandom) (ws : List String) (i : Nat) (h : i < ws.length) :
    (mkConcepts r ws).getD i defaultConcept =
      { id := "concept-" ++ toString i
        label := stripNonWord (ws.getD i "")
        theme := themes.getD (r.themeIdx i).val ""
        importance := ((r.importanceIdx i).val : Int) + 1 } := by
  have hl : i < (mkConcepts r ws).length := by rwa [mkConcepts_length]
  rw [List.getD_eq_getElem _ _ hl]
  simp [mkConcepts]

theorem countP_const_true {α : Type} (l : List α) : l.countP (fun _ => true) = l.length := by
  simp

theorem countP_const_false {α : Type} (l : List α) : l.countP (fun _ => false) = 0 := by
  simp

theorem sum_range_single : ∀ (n : Nat) (f : Nat → Nat) (i : Nat), i < n →
    (∀ k, k < n → k ≠ i → f k = 0) → ((List.range n).map f).sum = f i := by
  intro n
  induction n with
  | zero => intro f i hi _; exact absurd hi (Nat.not_lt_zero i)
  | succ m ih =>
    intro f i hi h0
    rw [List.range_succ, List.map_append, List.sum_append]
    simp only [List.map_cons, List.map_nil, List.sum_cons, List.sum_nil]
    by_cases him : i = m
    · subst him
      have hz : ((List.range i).map f).sum = 0 := by
        apply List.sum_eq_zero
        intro x hx
        obtain ⟨k, hk, rfl⟩ := List.mem_map.mp hx
        have hk2 := List.mem_range.mp hk
        exact h0 k (by omega) (by omega)
      omega
    · have him2 : i < m := by omega
      rw [ih f i him2 (fun k hk hne => h0 k (by omega) hne), h0 m (by omega) (by omega)]
      omega

theorem mkRelationships_countP (r : KGRandom) (cs : List Concept)
    (hle : cs.length ≤ 10)
    (hids : ∀ k, k < cs.length → (cs.getD k defaultConcept).id = "concept-" ++ toString k)
    (i : Nat) (hi : i < cs.length) :
    (mkRelationships r cs).countP
      (fun rel => rel.source == (cs.getD i defaultConcept).id) =
      (r.connCount i).val + 1 := by
  rw [mkRelationships, List.countP_flatMap]
  have hblock : ∀ k ∈ List.range cs.length,
      ((List.countP (fun rel => rel.source == (cs.getD i defaultConcept).id)) ∘
        (fun k => (List.range ((r.connCount k).val + 1)).map (fun j =>
          ({ source := (cs.getD k defaultConcept).id
             target := (cs.getD ((k + j + 1) % cs.length) defaultConcept).id
             label := relationshipLabels.getD (r.relIdx k j).val "" } : Relationship)))) k =
      (fun k => if k = i then (r.connCount i).val + 1 else 0) k := by
    intro k hk
    have hk2 := List.mem_range.mp hk
    show ((List.range ((r.connCount k).val + 1)).map (fun j =>
        ({ source := (cs.getD k defaultConcept).id
           target := (cs.getD ((k + j + 1) % cs.length) defaultConcept).id
           label := relationshipLabels.getD (r.relIdx k j).val "" } : Relationship))).countP
        (fun rel => rel.source == (cs.getD i defaultConcept).id) =
      if k = i then (r.connCount i).val + 1 else 0
    rw [List.countP_map]
    by_cases hki : k = i
    · subst hki
      rw [if_pos rfl]
      have heq : ((fun rel : Relationship => rel.source == (cs.getD k defaultConcept).id) ∘
          (fun j => ({ source := (cs.getD k defaultConcept).id
                       target := (cs.getD ((k + j + 1) % cs.length) defaultConcept).id
                       label := relationshipLabels.getD (r.relIdx k j).val "" } : Relationship))) =
          fun _ => true := by
        funext j
        simp [Function.comp]
      rw [heq, countP_const_true, List.length_range]
    · rw [if_neg hki]
      have hne : (cs.getD k defaultConcept).id ≠ (cs.getD i defaultConcept).id := by
        rw [hids k hk2, hids i hi]
        intro hcontra
        exact hki (conceptId_inj10 k (lt_of_lt_of_le hk2 hle) i (lt_of_lt_of_le hi hle) hcontra)
      have heq : ((fun rel : Relationship => rel.source == (cs.getD i defaultConcept).id) ∘
          (fun j => ({ source := (cs.getD k defaultConcept).id
                       target := (cs.getD ((k + j + 1) % cs.length) defaultConcept).id
                       label := relationshipLabels.getD (r.relIdx k j).val "" } : Relationship))) =
          fun _ => false := by
        funext j
        exact beq_eq_false_iff_ne.mpr hne
      rw [heq, countP_const_false]
  rw [List.map_congr_left hblock,
    sum_range_single cs.length _ i hi (fun k _ hne => if_neg hne)]
  simp

theorem mkRelationships_no_selfloop (r : KGRandom) (cs : List Concept)
    (hle : cs.length ≤ 10)
    (hids : ∀ k, k < cs.length → (cs.getD k defaultConcept).id = "concept-" ++ toString k)
    (h4 : cs.length > 3) :
    ∀ rel ∈ mkRelationships r cs, rel.source ≠ rel.target := by
  intro rel hrel
  rw [mem_mkRelationships] at hrel
  obtain ⟨i, hi, j, hj, rfl⟩ := hrel
  intro heq
  have heq2 : (cs.getD i defaultConcept).id =
      (cs.getD ((i + j + 1) % cs.length) defaultConcept).id := heq
  have hn : 0 < cs.length := by omega
  have htlt : (i + j + 1) % cs.length < cs.length := Nat.mod_lt _ hn
  rw [hids i hi, hids _ htlt] at heq2
  have hidx : i = (i + j + 1) % cs.length :=
    conceptId_inj10 i (by omega) _ (by omega) heq2
  have hj3 : j + 1 ≤ 3 := by have := (r.connCount i).isLt; omega
  rcases Nat.lt_or_ge (i + (j + 1)) cs.length with hlt | hge
  · rw [show i + j + 1 = i + (j + 1) from by omega, Nat.mod_eq_of_lt hlt] at hidx
    omega
  · have hlt2 : i + (j + 1) - cs.length < cs.length := by omega
    rw [show i + j + 1 = i + (j + 1) from by omega, Nat.mod_eq_sub_mod hge,
      Nat.mod_eq_of_lt hlt2] at hidx
    omega

theorem dedupFirstAux_subset : ∀ (l seen : List String) (x : String),
    x ∈ dedupFirstAux l seen → x ∈ l := by
  intro l
  induction l with
  | nil => intro seen x h; exact absurd h (List.not_mem_nil x)
  | cons a rest ih =>
    intro seen x h
    simp only [dedupFirstAux] at h
    by_cases ha : a ∈ seen
    · rw [if_pos ha] at h
      exact List.mem_cons_of_mem a (ih seen x h)
    · rw [if_neg ha] at h
      rcases List.mem_cons.mp h with h1 | h2
      · exact h1 ▸ List.mem_cons_self a rest
      · exact List.mem_cons_of_mem a (ih _ x h2)

theorem mem_selectedWords {content : String} {w : String} (h : w ∈ selectedWords content) :
    w ∈ splitWs content ∧ w.length > 4 := by
  have h1 : w ∈ dedupFirst (eligibleWords content) := List.mem_of_mem_take h
  have h2 : w ∈ eligibleWords content := dedupFirstAux_subset _ _ _ h1
  have h3 := List.mem_filter.mp h2
  exact ⟨h3.1, by simpa using h3.2⟩

theorem selectedWords_length_le (content : String) : (selectedWords content).length ≤ 10 := by
  rw [selectedWords, List.length_take]
  exact le_trans (Nat.min_le_left _ _) (Nat.min_le_left _ _)

theorem gkg_empty (r : KGRandom) (content : String) (h : eligibleWords content = []) :
    generateKnowledgeGraph r content = ⟨[], []⟩ := by
  unfold generateKnowledgeGraph
  have hsel : selectedWords content = [] := by
    unfold selectedWords dedupFirst
    rw [h]
    rfl
  rw [hsel]
  rfl

/-! ## Claim C8 -/

/-- Counterexample to claim C8: with two concepts and a seed asking for
two connections per concept, the wrapped target index `(i + j + 1) % 2`
equals the source index for `j = 1`, producing a self-loop even though
the concept count (2) is greater than 1. -/
theorem c8_counterexample :
    (generateKnowledgeGraph rngTwo "aaaaa bbbbb").concepts.length = 2 ∧
    ∃ rel ∈ (generateKnowledgeGraph rngTwo "aaaaa bbbbb").relationships,
      rel.source = rel.target := by
  refine ⟨by decide, ⟨⟨"concept-0", "concept-0", "relates to"⟩, by decide, rfl⟩⟩

/-- Claim C8 (amended): the fallback graph has at most 10 deduplicated
concepts drawn from words longer than 4 characters; each concept has
between 1 and 3 outgoing relationships (so at least one), selected by
wrapping index arithmetic; self-loops are excluded only when the concept
count exceeds 3 (with 2 or 3 concepts a wrapped offset of up to 3 can
return to the source); content with no eligible words yields empty
concepts and relationships without error. -/
theorem c8_amended (r : KGRandom) (content : String) :
    (generateKnowledgeGraph r content).concepts.length ≤ 10 ∧
    (∀ cpt ∈ (generateKnowledgeGraph r content).concepts,
      ∃ w, w ∈ splitWs content ∧ w.length > 4 ∧ cpt.label = stripNonWord w) ∧
    (∀ i, i < (generateKnowledgeGraph r content).concepts.length →
      1 ≤ (generateKnowledgeGraph r content).relationships.countP
            (fun rel => rel.source ==
              ((generateKnowledgeGraph r content).concepts.getD i defaultConcept).id) ∧
      (generateKnowledgeGraph r content).relationships.countP
            (fun rel => rel.source ==
              ((generateKnowledgeGraph r content).concepts.getD i defaultConcept).id) ≤ 3) ∧
    ((generateKnowledgeGraph r content).concepts.length > 3 →
      ∀ rel ∈ (generateKnowledgeGraph r content).relationships, rel.source ≠ rel.target) ∧
    (eligibleWords content = [] →
      (generateKnowledgeGraph r content).concepts = [] ∧
      (generateKnowledgeGraph r content).relationships = []) := by
  rw [show (generateKnowledgeGraph r content).concepts =
      mkConcepts r (selectedWords content) from rfl,
    show (generateKnowledgeGraph r content).relationships =
      mkRelationships r (mkConcepts r (selectedWords content)) from rfl]
  have hlen10 : (mkConcepts r (selectedWords content)).length ≤ 10 := by
    rw [mkConcepts_length]
    exact selectedWords_length_le content
  have hids : ∀ k, k < (mkConcepts r (selectedWords content)).length →
      ((mkConcepts r (selectedWords content)).getD k defaultConcept).id =
        "concept-" ++ toString k := by
    intro k hk
    rw [mkConcepts_length] at hk
    rw [mkConcepts_getD r _ k hk]
  refine ⟨hlen10, ?_, ?_, ?_, ?_⟩
  · intro cpt hcpt
    rw [mem_mkConcepts] at hcpt
    obtain ⟨i, hi, rfl⟩ := hcpt
    have hw := mem_selectedWords (getD_mem_of_lt (selectedWords content) i "" hi)
    exact ⟨(selectedWords content).getD i "", hw.1, hw.2, rfl⟩
  · intro i hi
    rw [mkRelationships_countP r _ hlen10 hids i hi]
    have := (r.connCount i).isLt
    omega
  · intro h4
    exact mkRelationships_no_selfloop r _ hlen10 hids h4
  · intro h
    have := gkg_empty r content h
    rw [show mkConcepts r (selectedWords content) =
        (generateKnowledgeGraph r content).concepts from rfl, this]
    exact ⟨rfl, rfl⟩

/-- Witness for C8 (amended): on concrete content with two eligible
words, concept 0 has exactly between 1 and 3 outgoing relationships. -/
theorem c8_witness :
    1 ≤ (generateKnowledgeGraph rngZero "hello world").relationships.countP
          (fun rel => rel.source ==
            ((generateKnowledgeGraph rngZero "hello world").concepts.getD 0 defaultConcept).id) ∧
    (generateKnowledgeGraph rngZero "hello world").relationships.countP
          (fun rel => rel.source ==
            ((generateKnowledgeGraph rngZero "hello world").concepts.getD 0 defaultConcept).id) ≤ 3 :=
  (c8_amended rngZero "hello world").2.2.1 0 (by decide)

/-! ## Helper lemmas: the text-search tiers -/

theorem addScoredN_sim : ∀ (l : List Note) (seen : List Nat) (sc : ℚ) (x : ScoredNote),
    x ∈ (addScoredN seen l sc).1 → x.similarity = sc := by
  intro l
  induction l with
  | nil => intro seen sc x h; exact absurd h (List.not_mem_nil x)
  | cons n rest ih =>
    intro seen sc x h
    simp only [addScoredN] at h
    by_cases hn : n.id ∈ seen
    · rw [if_pos hn] at h
      exact ih seen sc x h
    · rw [if_neg hn] at h
      rcases List.mem_cons.mp h with h1 | h2
      · rw [h1]
      · exact ih _ sc x h2

theorem addScoredN_seen_sub : ∀ (l : List Note) (seen : List Nat) (sc : ℚ) (i : Nat),
    i ∈ seen → i ∈ (addScoredN seen l sc).2 := by
  intro l
  induction l with
  | nil => intro seen sc i h; exact h
  | cons n rest ih =>
    intro seen sc i h
    simp only [addScoredN]
    by_cases hn : n.id ∈ seen
    · rw [if_pos hn]
      exact ih seen sc i h
    · rw [if_neg hn]
      exact ih _ sc i (List.mem_cons_of_mem _ h)

theorem addScoredN_mem_seen : ∀ (l : List Note) (seen : List Nat) (sc : ℚ) (x : ScoredNote),
    x ∈ (addScoredN seen l sc).1 → x.note.id ∈ (addScoredN seen l sc).2 := by
  intro l
  induction l with
  | nil => intro seen sc x h; exact absurd h (List.not_mem_nil x)
  | cons n rest ih =>
    intro seen sc x h
    simp only [addScoredN] at h ⊢
    by_cases hn : n.id ∈ seen
    · rw [if_pos hn] at h ⊢
      exact ih seen sc x h
    · rw [if_neg hn] at h ⊢
      rcases List.mem_cons.mp h with h1 | h2
      · rw [h1]
        exact addScoredN_seen_sub rest _ sc n.id (List.mem_cons_self _ _)
      · exact ih _ sc x h2

theorem addScoredN_not_seen : ∀ (l : List Note) (seen : List Nat) (sc : ℚ) (x : ScoredNote),
    x ∈ (addScoredN seen l sc).1 → x.note.id ∉ seen := by
  intro l
  induction l with
  | nil => intro seen sc x h; exact absurd h (List.not_mem_nil x)
  | cons n rest ih =>
    intro seen sc x h
    simp only [addScoredN] at h
    by_cases hn : n.id ∈ seen
    · rw [if_pos hn] at h
      exact ih seen sc x h
    · rw [if_neg hn] at h
      rcases List.mem_cons.mp h with h1 | h2
      · rw [h1]
        exact hn
      · intro hmem
        exact ih _ sc x h2 (List.mem_cons_of_mem _ hmem)

theorem addScoredN_nodup : ∀ (l : List Note) (seen : List Nat) (sc : ℚ),
    ((addScoredN seen l sc).1.map (fun x => x.note.id)).Nodup := by
  intro l
  induction l with
  | nil => intro seen sc; exact List.nodup_nil
  | cons n rest ih =>
    intro seen sc
    simp only [addScoredN]
    by_cases hn : n.id ∈ seen
    · rw [if_pos hn]
      exact ih seen sc
    · rw [if_neg hn]
      rw [List.map_cons, List.nodup_cons]
      refine ⟨?_, ih _ sc⟩
      intro hmem
      obtain ⟨x, hx, hxid⟩ := List.mem_map.mp hmem
      exact addScoredN_not_seen rest _ sc x hx (hxid ▸ List.mem_cons_self _ _)

theorem addScoredN_head (n : Note) (rest : List Note) (seen : List Nat) (sc : ℚ)
    (h : n.id ∉ seen) :
    (addScoredN seen (n :: rest) sc).1 =
      ⟨n, sc⟩ :: (addScoredN (n.id :: seen) rest sc).1 := by
  simp only [addScoredN]
  rw [if_neg h]

theorem pairwise_ge_of_const (v : ℚ) : ∀ (l : List ℚ), (∀ x ∈ l, x = v) →
    l.Pairwise (· ≥ ·) := by
  intro l
  induction l with
  | nil => intro _; exact List.Pairwise.nil
  | cons a rest ih =>
    intro h
    refine List.Pairwise.cons ?_ (ih fun x hx => h x (List.mem_cons_of_mem _ hx))
    intro b hb
    rw [h a (List.mem_cons_self _ _), h b (List.mem_cons_of_mem _ hb)]

/-- `noteTextSearch` unfolded into its three tier blocks. -/
theorem noteTextSearch_eq (db : List Note) (uid : Nat) (q : String) :
    noteTextSearch db uid q =
      (addScoredN [] (exactTitleNotes db uid (normalizeQuery q)) (95 / 100)).1 ++
      (addScoredN (addScoredN [] (exactTitleNotes db uid (normalizeQuery q)) (95 / 100)).2
        (subTitleNotes db uid (normalizeQuery q)) (85 / 100)).1 ++
      (addScoredN (addScoredN (addScoredN [] (exactTitleNotes db uid (normalizeQuery q))
          (95 / 100)).2
        (subTitleNotes db uid (normalizeQuery q)) (85 / 100)).2
        (contentNotes db uid (normalizeQuery q)) (7 / 10)).1 := rfl

theorem searchPOST_text (env : SearchEnv) (q : String)
    (hauth : env.authenticated = true) (hq : env.query = some q) (hne : q ≠ "")
    (h : textHasResults env q = true) :
    searchPOST env = (.results (textNotesOf env q) (textBookmarksOf env q) .text, false) := by
  simp only [searchPOST, hauth, hq, not_true_eq_false, if_false, if_neg hne, h, if_true]

/-! ## Claim C9 -/

/-- Claim C9: text matching runs first and, whenever it finds anything,
the response is returned immediately in text mode with the embedding path
never consulted; the note results carry the fixed tier scores
(0.95 exact title, 0.85 partial title, 0.7 content) in non-increasing
order, deduplicated by note id keeping the highest tier; and a note that
is the first exact (case-insensitive) title match of the query is ranked
first, in text mode. -/
theorem c9_text_first (env : SearchEnv) (q : String)
    (hauth : env.authenticated = true) (hq : env.query = some q) (hne : q ≠ "") :
    (textHasResults env q = true →
      searchPOST env = (.results (textNotesOf env q) (textBookmarksOf env q) .text, false)) ∧
    List.Sorted (· ≥ ·) ((noteTextSearch env.notesDb env.userId q).map (fun s => s.similarity)) ∧
    ((noteTextSearch env.notesDb env.userId q).map (fun s => s.note.id)).Nodup ∧
    (∀ s ∈ noteTextSearch env.notesDb env.userId q,
      s.similarity = 95 / 100 ∨ s.similarity = 85 / 100 ∨ s.similarity = 7 / 10) ∧
    (∀ n : Note, (env.stype = "all" ∨ env.stype = "notes") →
      (exactTitleNotes env.notesDb env.userId (normalizeQuery q)).head? = some n →
      (textNotesOf env q).head? = some ⟨n, 95 / 100⟩ ∧
      searchPOST env =
        (.results (textNotesOf env q) (textBookmarksOf env q) .text, false)) := by
  have hsimE : ∀ x ∈ ((addScoredN [] (exactTitleNotes env.notesDb env.userId
      (normalizeQuery q)) (95 / 100)).1.map (fun s => s.similarity)), x = (95 / 100 : ℚ) := by
    intro x hx
    obtain ⟨s, hs, rfl⟩ := List.mem_map.mp hx
    exact addScoredN_sim _ _ _ s hs
  have hsimP : ∀ x ∈ ((addScoredN (addScoredN [] (exactTitleNotes env.notesDb env.userId
      (normalizeQuery q)) (95 / 100)).2 (subTitleNotes env.notesDb env.userId
      (normalizeQuery q)) (85 / 100)).1.map (fun s => s.similarity)), x = (85 / 100 : ℚ) := by
    intro x hx
    obtain ⟨s, hs, rfl⟩ := List.mem_map.mp hx
    exact addScoredN_sim _ _ _ s hs
  have hsimC : ∀ x ∈ ((addScoredN (addScoredN (addScoredN [] (exactTitleNotes env.notesDb
      env.userId (normalizeQuery q)) (95 / 100)).2 (subTitleNotes env.notesDb env.userId
      (normalizeQuery q)) (85 / 100)).2 (contentNotes env.notesDb env.userId
      (normalizeQuery q)) (7 / 10)).1.map (fun s => s.similarity)), x = (7 / 10 : ℚ) := by
    intro x hx
    obtain ⟨s, hs, rfl⟩ := List.mem_map.mp hx
    exact addScoredN_sim _ _ _ s hs
  refine ⟨searchPOST_text env q hauth hq hne, ?_, ?_, ?_, ?_⟩
  · rw [List.Sorted, noteTextSearch_eq, List.map_append, List.map_append]
    refine List.pairwise_append.mpr ⟨List.pairwise_append.mpr
      ⟨pairwise_ge_of_const _ _ hsimE, pairwise_ge_of_const _ _ hsimP, ?_⟩,
      pairwise_ge_of_const _ _ hsimC, ?_⟩
    · intro a ha b hb
      rw [hsimE a ha, hsimP b hb]
      norm_num
    · intro a ha b hb
      rw [hsimC b hb]
      rcases List.mem_append.mp ha with h1 | h2
      · rw [hsimE a h1]; norm_num
      · rw [hsimP a h2]; norm_num
  · rw [noteTextSearch_eq, List.map_append, List.map_append]
    refine List.nodup_append.mpr ⟨List.nodup_append.mpr
      ⟨addScoredN_nodup _ _ _, addScoredN_nodup _ _ _, ?_⟩, addScoredN_nodup _ _ _, ?_⟩
    · intro a hae hap
      obtain ⟨x, hx, rfl⟩ := List.mem_map.mp hae
      obtain ⟨y, hy, hyx⟩ := List.mem_map.mp hap
      have h1 : x.note.id ∈ (addScoredN [] (exactTitleNotes env.notesDb env.userId
          (normalizeQuery q)) (95 / 100)).2 := addScoredN_mem_seen _ _ _ x hx
      exact addScoredN_not_seen _ _ _ y hy (hyx ▸ h1)
    · intro a hae hac
      obtain ⟨y, hy, hya⟩ := List.mem_map.mp hac
      have h2 : a ∈ (addScoredN (addScoredN [] (exactTitleNotes env.notesDb env.userId
          (normalizeQuery q)) (95 / 100)).2 (subTitleNotes env.notesDb env.userId
          (normalizeQuery q)) (85 / 100)).2 := by
        rcases List.mem_append.mp hae with h1 | h1
        · obtain ⟨x, hx, rfl⟩ := List.mem_map.mp h1
          exact addScoredN_seen_sub _ _ _ _ (addScoredN_mem_seen _ _ _ x hx)
        · obtain ⟨x, hx, rfl⟩ := List.mem_map.mp h1
          exact addScoredN_mem_seen _ _ _ x hx
      exact addScoredN_not_seen _ _ _ y hy (hya ▸ h2)
  · intro s hs
    rw [noteTextSearch_eq] at hs
    rcases List.mem_append.mp hs with h1 | h1
    · rcases List.mem_append.mp h1 with h2 | h2
      · exact Or.inl (addScoredN_sim _ _ _ s h2)
      · exact Or.inr (Or.inl (addScoredN_sim _ _ _ s h2))
    · exact Or.inr (Or.inr (addScoredN_sim _ _ _ s h1))
  · intro n hscope hhead
    have htn : textNotesOf env q = noteTextSearch env.notesDb env.userId q := by
      unfold textNotesOf
      rw [if_pos hscope]
    cases hex : exactTitleNotes env.notesDb env.userId (normalizeQuery q) with
    | nil =>
      rw [hex] at hhead
      exact absurd hhead (by simp)
    | cons a rest =>
      rw [hex] at hhead
      have han : a = n := by simpa using hhead
      subst han
      have he1 := addScoredN_head a rest [] (95 / 100) (List.not_mem_nil _)
      have hheadres : (textNotesOf env q).head? = some ⟨a, 95 / 100⟩ := by
        rw [htn, noteTextSearch_eq, hex, he1, List.cons_append, List.cons_append,
          List.head?_cons]
      have hhr : textHasResults env q = true := by
        unfold textHasResults
        rw [htn, noteTextSearch_eq, hex, he1, List.cons_append, List.cons_append]
        rfl
      exact ⟨hheadres, searchPOST_text env q hauth hq hne hhr⟩

/-- Witness for C9: a query equal (up to case) to the stored note's title
is returned in text mode, ranked first with the exact-title score. -/
theorem c9_witness :
    (textNotesOf envSearch "my note").head? = some ⟨demoNote, 95 / 100⟩ ∧
    searchPOST envSearch =
      (.results (textNotesOf envSearch "my note") (textBookmarksOf envSearch "my note")
        .text, false) :=
  (c9_text_first envSearch "my note" rfl rfl (by decide)).2.2.2.2 demoNote
    (Or.inl rfl) (by decide)

/-! ## Helper lemmas: the local vector generator -/

theorem accumVecAux_length : ∀ (codes : List Nat) (v : List ℚ) (i d : Nat),
    (accumVecAux v codes i d).length = v.length := by
  intro codes
  induction codes with
  | nil => intro v i d; rfl
  | cons c rest ih =>
    intro v i d
    rw [accumVecAux, ih]
    exact List.length_set v _ _

theorem accumVec_length (codes : List Nat) (d : Nat) : (accumVec codes d).length = d := by
  rw [accumVec, accumVecAux_length]
  exact List.length_replicate d 0

theorem sumSq_cons (a : ℚ) (rest : List ℚ) : sumSq (a :: rest) = a * a + sumSq rest := by
  rw [sumSq, List.map_cons, List.sum_cons]
  rfl

theorem sumSq_nonneg : ∀ (v : List ℚ), 0 ≤ sumSq v := by
  intro v
  induction v with
  | nil => exact le_of_eq rfl
  | cons a rest ih =>
    rw [sumSq_cons]
    exact add_nonneg (mul_self_nonneg a) ih

theorem sumSq_eq_zero_all : ∀ (v : List ℚ), sumSq v = 0 → ∀ x ∈ v, x = 0 := by
  intro v
  induction v with
  | nil => intro _ x hx; exact absurd hx (List.not_mem_nil x)
  | cons a rest ih =>
    intro h x hx
    rw [sumSq_cons] at h
    have h1 : 0 ≤ a * a := mul_self_nonneg a
    have h2 : 0 ≤ sumSq rest := sumSq_nonneg rest
    have ha : a * a = 0 := by linarith
    have hr : sumSq rest = 0 := by linarith
    rcases List.mem_cons.mp hx with h3 | h3
    · rw [h3]
      exact mul_self_eq_zero.mp ha
    · exact ih hr x h3

theorem sumSq_cast (v : List ℚ) :
    ((sumSq v : ℚ) : ℝ) = (v.map (fun x : ℚ => (x : ℝ) * (x : ℝ))).sum := by
  induction v with
  | nil => simp [sumSq]
  | cons a rest ih =>
    rw [sumSq_cons, List.map_cons, List.sum_cons, Rat.cast_add, Rat.cast_mul, ih]

theorem sumSq_replicate_zero (n : Nat) : sumSq (List.replicate n (0 : ℚ)) = 0 := by
  induction n with
  | zero => rfl
  | succ k ih => simpa [sumSq, List.replicate_succ, List.map_cons] using ih

theorem accumVec_nil (d : Nat) : accumVec [] d = List.replicate d 0 := rfl

/-! ## Claim C10 -/

/-- Claim C10: `simpleTextToVector(text, 1536)` always returns a vector
of exactly 1536 entries; its divisor is `magnitude || 1`, so when the
accumulated vector is the zero vector (the magnitude `m` is 0, as for
empty input) the guard divides by 1 and returns the zero vector
unchanged, and otherwise the result is L2-normalized: the sum of squares
of the divided entries is exactly 1. The magnitude is carried as a real
`m` with `m ≥ 0` and `m² = sumSq` (the accumulation and sum of squares
are exact rational arithmetic from the source). -/
theorem c10_vector (codes : List Nat) (m : ℝ)
    (hm : 0 ≤ m) (hsq : m ^ 2 = ((sumSq (accumVec codes 1536) : ℚ) : ℝ)) :
    (∀ d : ℝ, ((accumVec codes 1536).map (fun x : ℚ => (x : ℝ) / d)).length = 1536) ∧
    (sumSq (accumVec codes 1536) = 0 →
      m = 0 ∧ accumVec codes 1536 = List.replicate 1536 0 ∧
      (accumVec codes 1536).map (fun x : ℚ => (x : ℝ) / 1) = List.replicate 1536 (0 : ℝ)) ∧
    (sumSq (accumVec codes 1536) ≠ 0 →
      m ≠ 0 ∧
      (((accumVec codes 1536).map (fun x : ℚ => (x : ℝ) / m)).map (fun y => y * y)).sum = 1) := by
  refine ⟨?_, ?_, ?_⟩
  · intro d
    rw [List.length_map]
    exact accumVec_length codes 1536
  · intro h0
    have hm0 : m = 0 := by
      have : m ^ 2 = 0 := by rw [hsq, h0]; exact Rat.cast_zero
      exact pow_eq_zero_iff two_ne_zero |>.mp this
    have hrep : accumVec codes 1536 = List.replicate 1536 0 := by
      rw [List.eq_replicate_iff]
      exact ⟨accumVec_length codes 1536, sumSq_eq_zero_all _ h0⟩
    refine ⟨hm0, hrep, ?_⟩
    rw [hrep, List.map_replicate]
    norm_num
  · intro h0
    have hm0 : m ≠ 0 := by
      intro hcontra
      apply h0
      have : ((sumSq (accumVec codes 1536) : ℚ) : ℝ) = 0 := by
        rw [← hsq, hcontra]
        ring
      exact_mod_cast this
    refine ⟨hm0, ?_⟩
    rw [List.map_map]
    have hfun : ((fun y => y * y) ∘ (fun x : ℚ => (x : ℝ) / m)) =
        fun x : ℚ => ((x : ℝ) * (x : ℝ)) * (m * m)⁻¹ := by
      funext x
      rw [Function.comp_apply, div_mul_div_comm, div_eq_mul_inv]
    rw [hfun, List.sum_map_mul_right, ← sumSq_cast, ← hsq]
    have : m ^ 2 = m * m := sq m
    rw [this, mul_inv_cancel₀ (mul_ne_zero hm0 hm0)]

/-- Witness for C10 at the empty input: the accumulated vector is the
zero vector, the magnitude is 0, and the guarded division by 1 returns
the 1536-dimensional zero vector unchanged. -/
theorem c10_witness :
    (∀ d : ℝ, ((accumVec [] 1536).map (fun x : ℚ => (x : ℝ) / d)).length = 1536) ∧
    accumVec [] 1536 = List.replicate 1536 0 ∧
    (accumVec [] 1536).map (fun x : ℚ => (x : ℝ) / 1) = List.replicate 1536 (0 : ℝ) := by
  have hz : sumSq (accumVec [] 1536) = 0 := by
    rw [accumVec_nil]
    exact sumSq_replicate_zero 1536
  have h := c10_vector [] 0 le_rfl (by rw [hz]; norm_num)
  exact ⟨h.1, (h.2.1 hz).2.1, (h.2.1 hz).2.2⟩

end MindNotes
